import Mathlib

/-!
Verification of the incremental-ingest and daily-aggregation core of the
monitor_contratacion repository (src/src/metrics.py, src/etl/ingest_secop_daily.py,
src/src/secop_api.py), shallowly embedded in Lean.

Modelling conventions:
* A pandas DataFrame is a list of typed rows; row order is list order.
* A pandas datetime value is a `Timestamp`: a calendar day (`day : Int`, a day
  number) plus a time-of-day component (`tod : Nat`).  Comparison of pandas
  datetimes is lexicographic on (day, tod); `.date()` / `.dt.date` projects
  out `day`.
* A raw cell fed to pd.to_numeric(errors="coerce") is an `RCell`: either a
  value that coerces to the rational `q` (`num q`), a value on which coercion
  fails (`nonnum`, e.g. the string "abc"), or a missing value (`null`).
  Coercion maps `nonnum` and `null` to NaN, modelled as `null`.
* A raw cell fed to pd.to_datetime(errors="coerce") is a `DCell` likewise.
* NaN/NaT cells of a coerced column are `Option.none`; `dropna` filters on
  `isSome`.
* Monetary values are rationals (the spec's floating-point caveat is read as
  exact field arithmetic).
-/

/-- A pandas datetime value: calendar day plus time-of-day component. -/
structure Timestamp where
  day : Int
  tod : Nat
deriving DecidableEq, Repr

/-- Strict comparison of pandas datetimes: lexicographic on (day, tod). -/
def tsLt (a b : Timestamp) : Prop :=
  a.day < b.day ∨ (a.day = b.day ∧ a.tod < b.tod)

/-- Non-strict comparison of pandas datetimes. -/
def tsLe (a b : Timestamp) : Prop :=
  a.day < b.day ∨ (a.day = b.day ∧ a.tod ≤ b.tod)

instance (a b : Timestamp) : Decidable (tsLt a b) := by
  unfold tsLt; infer_instance

instance (a b : Timestamp) : Decidable (tsLe a b) := by
  unfold tsLe; infer_instance

/-- A raw cell as seen by pd.to_numeric(errors="coerce"): a value that coerces
to the rational q, a value on which coercion fails, or a missing value. -/
inductive RCell where
  | num (q : ℚ)
  | nonnum
  | null
deriving DecidableEq, Repr

/-- pd.to_numeric(errors="coerce") on one cell: non-coercible and missing
values become NaN (modelled as null). -/
def toNumericCoerce : RCell → RCell
  | .num q => .num q
  | .nonnum => .null
  | .null => .null

/-- pd.to_numeric(errors="coerce") on one cell, NaN as Option.none. -/
def toNumericOpt : RCell → Option ℚ
  | .num q => some q
  | .nonnum => none
  | .null => none

/-- One row of the dataframe passed to build_daily_metrics: the value of its
date column (none = NaT/NaN) and the raw value of its value column. -/
structure MRow where
  fecha : Option Timestamp
  valor : RCell
deriving DecidableEq, Repr

/-- One row of build_daily_metrics output after the groupby/agg step
(columns n_contratos and suma_millones of metrics.py lines 28-35). -/
structure GroupRow where
  fecha : Timestamp
  n_contratos : Nat
  suma_millones : ℚ
deriving DecidableEq, Repr

/-- One row of the final build_daily_metrics output (metrics.py): the defined
column shape fecha, n_contratos, suma_millones, promedio_millones, fuente. -/
structure MetricRow where
  fecha : Timestamp
  n_contratos : Nat
  suma_millones : ℚ
  promedio_millones : ℚ
  fuente : String
deriving DecidableEq, Repr

/-- metrics.py line 25: df_work[valor_col] = pd.to_numeric(df_work[valor_col],
errors="coerce"), applied row-wise. -/
def coerceValorRow (r : MRow) : MRow :=
  { r with valor := toNumericCoerce r.valor }

/-- metrics.py line 26: df_work.dropna(subset=[fecha_col, valor_col]). -/
def rowNotNa (r : MRow) : Bool :=
  r.fecha.isSome && (match r.valor with | .num _ => true | _ => false)

def dropnaFechaValor (df : List MRow) : List MRow :=
  df.filter rowNotNa

/-- The (date, value) pairs of the rows that survive coercion and dropna. -/
def survivors (df : List MRow) : List (Timestamp × ℚ) :=
  (dropnaFechaValor (df.map coerceValorRow)).filterMap fun r =>
    match r.fecha, r.valor with
    | some t, .num q => some (t, q)
    | _, _ => none

/-- Insert a group key into the sorted duplicate-free key list; embeds how
pandas groupby(sort=True) assembles its sorted set of group keys. -/
def insertKey (t : Timestamp) : List Timestamp → List Timestamp
  | [] => [t]
  | u :: rest =>
      if tsLt t u then t :: u :: rest
      else if t = u then u :: rest
      else u :: insertKey t rest

/-- The sorted duplicate-free list of group keys of a groupby over the first
components. -/
def groupKeys : List (Timestamp × ℚ) → List Timestamp
  | [] => []
  | p :: rest => insertKey p.1 (groupKeys rest)

/-- metrics.py lines 28-35: groupby(fecha_col).agg(n_contratos=count,
suma_millones=sum); one output row per group key, keys ascending. -/
def groupbyAgg (l : List (Timestamp × ℚ)) : List GroupRow :=
  (groupKeys l).map fun t =>
    let vals := (l.filter fun p => p.1 = t).map Prod.snd
    { fecha := t, n_contratos := vals.length, suma_millones := vals.sum }

/-- metrics.py lines 37-39: promedio_millones = suma_millones / n_contratos,
rename fecha_col to fecha, tag with fuente. -/
def addDerived (fuente : String) (g : GroupRow) : MetricRow :=
  { fecha := g.fecha, n_contratos := g.n_contratos, suma_millones := g.suma_millones,
    promedio_millones := g.suma_millones / (g.n_contratos : ℚ), fuente := fuente }

/-- metrics.py line 41: group.sort_values("fecha") — insertion step. -/
def insertByFecha (r : MetricRow) : List MetricRow → List MetricRow
  | [] => [r]
  | s :: rest => if tsLe r.fecha s.fecha then r :: s :: rest else s :: insertByFecha r rest

/-- metrics.py line 41: group.sort_values("fecha") (ascending). -/
def sortByFecha : List MetricRow → List MetricRow
  | [] => []
  | r :: rest => insertByFecha r (sortByFecha rest)

/-- src/src/metrics.py build_daily_metrics: empty guard, value coercion,
dropna on date and value, groupby date with count/sum, average, source tag,
sort ascending by date.  The column-name parameters of the original select
the fields fecha/valor of MRow. -/
def build_daily_metrics (df : List MRow) (fuente : String) : List MetricRow :=
  if df = [] then []
  else sortByFecha ((groupbyAgg (survivors df)).map (addDerived fuente))

/-! ## Incremental Merger and Watermark Tracker (src/etl/ingest_secop_daily.py) -/

/-- pandas drop_duplicates, keep="first": keep a row iff its dedup key has not
been seen among earlier rows.  `seen` accumulates the keys already kept.
The source's two cases are both instances: subset_cols given (key projects
those columns) and subset_cols = None (key is the whole row, key = id). -/
def dropDupsAux {α κ : Type} [DecidableEq κ] (key : α → κ) (seen : List κ) :
    List α → List α
  | [] => []
  | a :: rest =>
      if key a ∈ seen then dropDupsAux key seen rest
      else a :: dropDupsAux key (key a :: seen) rest

/-- pandas DataFrame.drop_duplicates (keep first occurrence per key,
preserving row order). -/
def drop_duplicates {α κ : Type} [DecidableEq κ] (key : α → κ) (l : List α) : List α :=
  dropDupsAux key [] l

/-- The seen-key set after scanning l, threading exactly as dropDupsAux. -/
def seenAfter {α κ : Type} [DecidableEq κ] (key : α → κ) (seen : List κ)
    (l : List α) : List κ :=
  l.foldl (fun s a => if key a ∈ s then s else key a :: s) seen

/-- src/etl/ingest_secop_daily.py append_to_parquet: no-op on an empty batch;
if the store exists, concatenate old then new and drop duplicates (by
subset_cols when given, full-row equality otherwise — both are the key
function); if the store does not exist, the batch is written verbatim.
The store is `none` when the parquet file does not exist. -/
def append_to_parquet {α κ : Type} [DecidableEq κ] (key : α → κ)
    (df_new : List α) (store : Option (List α)) : Option (List α) :=
  if df_new.isEmpty then store
  else
    match store with
    | some df_old => some (drop_duplicates key (df_old ++ df_new))
    | none => some df_new

/-- One stored record of the SECOP parquet stores, as written by the etl
fetchers: its date column (fecha_de_cargue_en_el_secop / fecha_de_firma,
non-null after the fetcher's dropna), its monetary column in millions, and
an opaque identifier standing for the remaining columns (the dedup key). -/
structure SRow where
  fecha : Timestamp
  cuantia : ℚ
  uid : Nat
deriving DecidableEq, Repr

/-- Binary max of pandas datetime values (lexicographic comparison). -/
def tsMax (a b : Timestamp) : Timestamp :=
  if tsLt a b then b else a

/-- pandas Series.max over a datetime column; none on an empty column. -/
def colMax : List Timestamp → Option Timestamp
  | [] => none
  | t :: ts => some (ts.foldl tsMax t)

/-- src/etl/ingest_secop_daily.py get_last_date_from_parquet: today minus
default_days_back when the file is absent or empty, otherwise the max of the
date column projected to its calendar day (max_date.date()).  Dates are day
numbers (Int); `today` is passed explicitly to keep the read pure. -/
def get_last_date_from_parquet (store : Option (List SRow)) (today : Int)
    (default_days_back : Int) : Int :=
  match store with
  | none => today - default_days_back
  | some df =>
      match colMax (df.map (fun r => r.fecha)) with
      | none => today - default_days_back
      | some m => m.day

/-! ## Record Fetchers (src/src/secop_api.py and src/etl/ingest_secop_daily.py),
modelled from pd.read_json onward: projection, coercion, URL extraction,
dropna on the date and value columns. -/

/-- A raw cell as seen by pd.to_datetime(errors="coerce"): a value that parses
to the datetime t, a value that fails to parse, or a missing value. -/
inductive DCell where
  | ts (t : Timestamp)
  | bad
  | null
deriving DecidableEq, Repr

/-- pd.to_datetime(errors="coerce") on one cell, NaT as Option.none. -/
def toDatetimeCoerce : DCell → Option Timestamp
  | .ts t => some t
  | .bad => none
  | .null => none

/-- A raw URL-like cell: a dict-shaped value with a url member, a scalar, or
missing. -/
inductive UCell where
  | dictUrl (s : String)
  | scalar (s : String)
  | null
deriving DecidableEq, Repr

/-- The fetchers' URL cleanup: if the cell is a dict with a url member,
extract the scalar url; otherwise pass the value through unchanged. -/
def extract_url : UCell → UCell
  | .dictUrl s => .scalar s
  | x => x

/-- One raw SECOP 1 record as fetched (fields retained by the projection;
the other projected columns are opaque and irrelevant to the claims). -/
structure Raw1 where
  nombre_entidad : String
  cuantia_contrato : RCell
  fecha_de_cargue : DCell
  ruta : UCell
deriving DecidableEq, Repr

/-- One raw SECOP 2 record as fetched. -/
structure Raw2 where
  nombre_entidad : String
  valor_del_contrato : RCell
  fecha_de_firma : DCell
  urlproceso : UCell
deriving DecidableEq, Repr

/-- One cleaned SECOP 1 record of the etl fetcher (date kept as a full
datetime: ingest_secop_daily.py uses pd.to_datetime with no .dt.date). -/
structure Clean1Etl where
  nombre_entidad : String
  cuantia_contrato : Option ℚ
  fecha_de_cargue : Option Timestamp
  ruta : UCell
deriving DecidableEq, Repr

/-- One cleaned SECOP 2 record of the etl fetcher. -/
structure Clean2Etl where
  nombre_entidad : String
  valor_del_contrato : Option ℚ
  fecha_de_firma : Option Timestamp
  urlproceso : UCell
deriving DecidableEq, Repr

/-- One cleaned SECOP 1 record of the dashboard fetcher (secop_api.py applies
.dt.date, so the date is a calendar day). -/
structure Clean1Api where
  nombre_entidad : String
  cuantia_contrato : Option ℚ
  fecha_de_cargue : Option Int
  ruta : UCell
deriving DecidableEq, Repr

/-- One cleaned SECOP 2 record of the dashboard fetcher. -/
structure Clean2Api where
  nombre_entidad : String
  valor_del_contrato : Option ℚ
  fecha_de_firma : Option Int
  urlproceso : UCell
deriving DecidableEq, Repr

/-- etl/ingest_secop_daily.py fetch_secop1_since, from pd.read_json onward:
empty guard, column projection, cuantia_contrato = to_numeric(...)/1e6,
fecha = to_datetime(...), URL extraction, dropna on [fecha, cuantia]. -/
def fetch_secop1_since (raws : List Raw1) : List Clean1Etl :=
  if raws.isEmpty then []
  else
    ((raws.map fun r =>
      { nombre_entidad := r.nombre_entidad,
        cuantia_contrato := (toNumericOpt r.cuantia_contrato).map (fun q => q / 1000000),
        fecha_de_cargue := toDatetimeCoerce r.fecha_de_cargue,
        ruta := extract_url r.ruta : Clean1Etl }).filter fun r =>
      r.fecha_de_cargue.isSome && r.cuantia_contrato.isSome)

/-- etl/ingest_secop_daily.py fetch_secop2_since, from pd.read_json onward. -/
def fetch_secop2_since (raws : List Raw2) : List Clean2Etl :=
  if raws.isEmpty then []
  else
    ((raws.map fun r =>
      { nombre_entidad := r.nombre_entidad,
        valor_del_contrato := (toNumericOpt r.valor_del_contrato).map (fun q => q / 1000000),
        fecha_de_firma := toDatetimeCoerce r.fecha_de_firma,
        urlproceso := extract_url r.urlproceso : Clean2Etl }).filter fun r =>
      r.fecha_de_firma.isSome && r.valor_del_contrato.isSome)

/-- src/src/secop_api.py fetch_secop1, from pd.read_json onward: same pipeline
but the date column is normalized to a calendar date with .dt.date. -/
def fetch_secop1 (raws : List Raw1) : List Clean1Api :=
  if raws.isEmpty then []
  else
    ((raws.map fun r =>
      { nombre_entidad := r.nombre_entidad,
        cuantia_contrato := (toNumericOpt r.cuantia_contrato).map (fun q => q / 1000000),
        fecha_de_cargue := (toDatetimeCoerce r.fecha_de_cargue).map Timestamp.day,
        ruta := extract_url r.ruta : Clean1Api }).filter fun r =>
      r.fecha_de_cargue.isSome && r.cuantia_contrato.isSome)

/-- src/src/secop_api.py fetch_secop2, from pd.read_json onward. -/
def fetch_secop2 (raws : List Raw2) : List Clean2Api :=
  if raws.isEmpty then []
  else
    ((raws.map fun r =>
      { nombre_entidad := r.nombre_entidad,
        valor_del_contrato := (toNumericOpt r.valor_del_contrato).map (fun q => q / 1000000),
        fecha_de_firma := (toDatetimeCoerce r.fecha_de_firma).map Timestamp.day,
        urlproceso := extract_url r.urlproceso : Clean2Api }).filter fun r =>
      r.fecha_de_firma.isSome && r.valor_del_contrato.isSome)

/-! ## Object-level model of build_daily_metrics (mutation tracking)

Python dataframes are heap objects; column assignment mutates the object a
variable points to, while dropna/groupby/sort return fresh objects.  The heap
is a list of dataframe objects indexed by address; the caller's argument is
the object at address 0.  build_daily_metrics line 22 binds df_work to
df.copy() (a fresh object); line 25 assigns a column in place through
df_work's address; line 26 rebinds df_work to the fresh object returned by
dropna.  The function returns its result together with the post-call state
of the caller's object. -/
def build_daily_metrics_heap (df : List MRow) (fuente : String) :
    List MetricRow × List MRow :=
  if df = [] then ([], df)
  else
    -- heap0: the caller's object lives at address 0
    let heap0 : List (List MRow) := [df]
    -- line 22: df_work = df.copy() — allocate a copy at address 1
    let heap1 : List (List MRow) := heap0 ++ [heap0.getD 0 []]
    -- line 25: df_work[valor_col] = pd.to_numeric(df_work[valor_col], "coerce")
    -- column assignment mutates the object at df_work's address (1)
    let heap2 : List (List MRow) := heap1.set 1 ((heap1.getD 1 []).map coerceValorRow)
    -- line 26: df_work = df_work.dropna(...) — fresh object at address 2
    let heap3 : List (List MRow) := heap2 ++ [dropnaFechaValor (heap2.getD 1 [])]
    -- lines 28-41 build fresh objects from the object df_work points to
    let df_work := heap3.getD 2 []
    let out := sortByFecha ((groupbyAgg (df_work.filterMap fun r =>
      match r.fecha, r.valor with
      | some t, .num q => some (t, q)
      | _, _ => none)).map (addDerived fuente))
    (out, heap3.getD 0 [])

/-! ## Default rows (used as the default of List.getD row access) -/

def defaultMetricRow : MetricRow :=
  { fecha := ⟨0, 0⟩, n_contratos := 0, suma_millones := 0,
    promedio_millones := 0, fuente := "" }

def defaultClean1Etl : Clean1Etl :=
  { nombre_entidad := "", cuantia_contrato := none, fecha_de_cargue := none, ruta := .null }

def defaultClean2Etl : Clean2Etl :=
  { nombre_entidad := "", valor_del_contrato := none, fecha_de_firma := none, urlproceso := .null }

def defaultClean1Api : Clean1Api :=
  { nombre_entidad := "", cuantia_contrato := none, fecha_de_cargue := none, ruta := .null }

def defaultClean2Api : Clean2Api :=
  { nombre_entidad := "", valor_del_contrato := none, fecha_de_firma := none, urlproceso := .null }

/-! ## Lemmas: timestamp order -/

theorem tsLe_refl (a : Timestamp) : tsLe a a := Or.inr ⟨rfl, le_refl _⟩

theorem tsLt_irrefl (a : Timestamp) : ¬ tsLt a a := by
  rintro (h | ⟨-, h⟩) <;> exact lt_irrefl _ h

theorem tsLt_trans {a b c : Timestamp} (hab : tsLt a b) (hbc : tsLt b c) : tsLt a c := by
  rcases hab with h1 | ⟨e1, h1⟩ <;> rcases hbc with h2 | ⟨e2, h2⟩
  · exact Or.inl (lt_trans h1 h2)
  · exact Or.inl (e2 ▸ h1)
  · exact Or.inl (e1 ▸ h2)
  · exact Or.inr ⟨e1.trans e2, lt_trans h1 h2⟩

theorem tsLt_ne {a b : Timestamp} (h : tsLt a b) : a ≠ b := by
  rintro rfl; exact tsLt_irrefl a h

theorem tsLe_of_tsLt {a b : Timestamp} (h : tsLt a b) : tsLe a b := by
  rcases h with h | ⟨e, h⟩
  · exact Or.inl h
  · exact Or.inr ⟨e, le_of_lt h⟩

theorem tsLt_of_not_ge {a b : Timestamp} (h : ¬ tsLt a b) (hne : a ≠ b) : tsLt b a := by
  rcases lt_trichotomy a.day b.day with hd | hd | hd
  · exact absurd (Or.inl hd) h
  · rcases lt_trichotomy a.tod b.tod with ht | ht | ht
    · exact absurd (Or.inr ⟨hd, ht⟩) h
    · exact absurd (by cases a; cases b; simp_all) hne
    · exact Or.inr ⟨hd.symm, ht⟩
  · exact Or.inl hd

theorem tsLe_total (a b : Timestamp) : tsLe a b ∨ tsLe b a := by
  by_cases he : a = b
  · exact Or.inl (he ▸ tsLe_refl a)
  · by_cases h : tsLt a b
    · exact Or.inl (tsLe_of_tsLt h)
    · exact Or.inr (tsLe_of_tsLt (tsLt_of_not_ge h he))

theorem tsLt_of_tsLe_ne {a b : Timestamp} (h : tsLe a b) (hne : a ≠ b) : tsLt a b := by
  by_cases hlt : tsLt a b
  · exact hlt
  · exfalso
    rcases tsLt_of_not_ge hlt hne with hd | ⟨e, ht⟩ <;> rcases h with hd2 | ⟨e2, ht2⟩
    · exact lt_irrefl _ (lt_trans hd hd2)
    · exact lt_irrefl _ (e2 ▸ hd)
    · exact lt_irrefl _ (e ▸ hd2)
    · exact lt_irrefl _ (lt_of_lt_of_le ht ht2)

theorem tsLe_day {a b : Timestamp} (h : tsLe a b) : a.day ≤ b.day := by
  rcases h with h | ⟨e, -⟩
  · exact le_of_lt h
  · exact le_of_eq e

/-! ## Lemmas: timestamp max -/

theorem tsLe_of_not_lt {a b : Timestamp} (h : ¬ tsLt a b) : tsLe b a := by
  by_cases he : b = a
  · exact he ▸ tsLe_refl b
  · exact tsLe_of_tsLt (tsLt_of_not_ge h (fun e => he e.symm))

theorem tsLe_tsMax_left (a b : Timestamp) : tsLe a (tsMax a b) := by
  unfold tsMax
  by_cases h : tsLt a b
  · simp [h, tsLe_of_tsLt h]
  · simp [h, tsLe_refl]

theorem tsLe_tsMax_right (a b : Timestamp) : tsLe b (tsMax a b) := by
  unfold tsMax
  by_cases h : tsLt a b
  · simp [h, tsLe_refl]
  · simp [h, tsLe_of_not_lt h]

theorem tsMax_cases (a b : Timestamp) : tsMax a b = a ∨ tsMax a b = b := by
  unfold tsMax
  by_cases h : tsLt a b <;> simp [h]

theorem tsLe_trans {a b c : Timestamp} (hab : tsLe a b) (hbc : tsLe b c) : tsLe a c := by
  rcases hab with h1 | ⟨e1, h1⟩ <;> rcases hbc with h2 | ⟨e2, h2⟩
  · exact Or.inl (lt_trans h1 h2)
  · exact Or.inl (e2 ▸ h1)
  · exact Or.inl (e1 ▸ h2)
  · exact Or.inr ⟨e1.trans e2, le_trans h1 h2⟩

theorem foldl_tsMax_le (ts : List Timestamp) :
    ∀ t, ∀ u ∈ t :: ts, tsLe u (ts.foldl tsMax t) := by
  induction ts with
  | nil =>
      intro t u hu
      rw [List.mem_singleton] at hu
      subst hu
      exact tsLe_refl u
  | cons h tail ih =>
      intro t u hu
      simp only [List.foldl]
      rcases List.mem_cons.mp hu with rfl | hu2
      · exact tsLe_trans (tsLe_tsMax_left u h) (ih (tsMax u h) _ (List.mem_cons_self _ _))
      · rcases List.mem_cons.mp hu2 with rfl | hu3
        · exact tsLe_trans (tsLe_tsMax_right t u) (ih (tsMax t u) _ (List.mem_cons_self _ _))
        · exact ih (tsMax t h) u (List.mem_cons_of_mem _ hu3)

theorem foldl_tsMax_mem (ts : List Timestamp) :
    ∀ t, ts.foldl tsMax t ∈ t :: ts := by
  induction ts with
  | nil => intro t; exact List.mem_singleton.mpr rfl
  | cons h tail ih =>
      intro t
      have := ih (tsMax t h)
      rcases List.mem_cons.mp this with he | hmem
      · rcases tsMax_cases t h with hc | hc
        · exact List.mem_cons.mpr (Or.inl (he.trans hc))
        · exact List.mem_cons_of_mem _ (List.mem_cons.mpr (Or.inl (he.trans hc)))
      · exact List.mem_cons_of_mem _ (List.mem_cons_of_mem _ hmem)

theorem colMax_mem {l : List Timestamp} {m : Timestamp} (h : colMax l = some m) : m ∈ l := by
  cases l with
  | nil => simp [colMax] at h
  | cons t ts =>
      simp only [colMax, Option.some.injEq] at h
      exact h ▸ foldl_tsMax_mem ts t

theorem colMax_ge {l : List Timestamp} {m : Timestamp} (h : colMax l = some m) :
    ∀ u ∈ l, tsLe u m := by
  cases l with
  | nil => simp [colMax] at h
  | cons t ts =>
      simp only [colMax, Option.some.injEq] at h
      exact fun u hu => h ▸ foldl_tsMax_le ts t u hu

theorem colMax_isSome {l : List Timestamp} (h : l ≠ []) : ∃ m, colMax l = some m := by
  cases l with
  | nil => exact absurd rfl h
  | cons t ts => exact ⟨ts.foldl tsMax t, rfl⟩

/-! ## Lemmas: group keys -/

theorem insertKey_self (t : Timestamp) (rest : List Timestamp) :
    insertKey t (t :: rest) = t :: rest := by
  simp [insertKey, tsLt_irrefl t]

theorem mem_insertKey (t u : Timestamp) (l : List Timestamp) :
    u ∈ insertKey t l ↔ u = t ∨ u ∈ l := by
  induction l with
  | nil => simp [insertKey]
  | cons v rest ih =>
      by_cases h1 : tsLt t v
      · simp only [insertKey, if_pos h1, List.mem_cons]
      · by_cases h2 : t = v
        · subst h2
          rw [insertKey_self]
          simp only [List.mem_cons]
          tauto
        · simp only [insertKey, if_neg h1, if_neg h2, List.mem_cons, ih]
          tauto

theorem insertKey_pairwise {l : List Timestamp} (t : Timestamp)
    (h : l.Pairwise tsLt) : (insertKey t l).Pairwise tsLt := by
  induction l with
  | nil => simp [insertKey]
  | cons v rest ih =>
      rcases List.pairwise_cons.mp h with ⟨hv, hrest⟩
      by_cases h1 : tsLt t v
      · simp only [insertKey, if_pos h1]
        refine List.pairwise_cons.mpr ⟨?_, h⟩
        intro u hu
        rcases List.mem_cons.mp hu with rfl | hu2
        · exact h1
        · exact tsLt_trans h1 (hv u hu2)
      · by_cases h2 : t = v
        · subst h2
          rw [insertKey_self]
          exact h
        · simp only [insertKey, if_neg h1, if_neg h2]
          refine List.pairwise_cons.mpr ⟨?_, ih hrest⟩
          intro u hu
          rcases (mem_insertKey t u rest).mp hu with rfl | hu2
          · exact tsLt_of_not_ge h1 h2
          · exact hv u hu2

theorem groupKeys_pairwise (l : List (Timestamp × ℚ)) : (groupKeys l).Pairwise tsLt := by
  induction l with
  | nil => simp [groupKeys]
  | cons p rest ih => exact insertKey_pairwise p.1 ih

theorem mem_groupKeys (l : List (Timestamp × ℚ)) (t : Timestamp) :
    t ∈ groupKeys l ↔ ∃ p ∈ l, p.1 = t := by
  induction l with
  | nil => simp [groupKeys]
  | cons p rest ih =>
      simp only [groupKeys, mem_insertKey, ih, List.mem_cons]
      constructor
      · rintro (rfl | ⟨q, hq, rfl⟩)
        · exact ⟨p, Or.inl rfl, rfl⟩
        · exact ⟨q, Or.inr hq, rfl⟩
      · rintro ⟨q, (rfl | hq), rfl⟩
        · exact Or.inl rfl
        · exact Or.inr ⟨q, hq, rfl⟩

/-! ## Lemmas: the final sort -/

theorem sortByFecha_of_sorted {l : List MetricRow}
    (h : l.Pairwise (fun a b => tsLe a.fecha b.fecha)) : sortByFecha l = l := by
  induction l with
  | nil => rfl
  | cons r rest ih =>
      rcases List.pairwise_cons.mp h with ⟨hr, hrest⟩
      have : sortByFecha (r :: rest) = insertByFecha r rest := by
        simp [sortByFecha, ih hrest]
      rw [this]
      cases rest with
      | nil => rfl
      | cons s tail => simp [insertByFecha, hr s (List.mem_cons_self _ _)]

/-! ## Lemmas: build_daily_metrics structure -/

theorem groupRows_pairwise (l : List (Timestamp × ℚ)) (f : String) :
    ((groupbyAgg l).map (addDerived f)).Pairwise (fun a b => tsLt a.fecha b.fecha) := by
  unfold groupbyAgg
  rw [List.map_map, List.pairwise_map]
  exact groupKeys_pairwise l

theorem build_daily_metrics_eq (df : List MRow) (f : String) (h : df ≠ []) :
    build_daily_metrics df f = (groupbyAgg (survivors df)).map (addDerived f) := by
  unfold build_daily_metrics
  rw [if_neg h]
  exact sortByFecha_of_sorted ((groupRows_pairwise _ f).imp (fun hh => tsLe_of_tsLt hh))

theorem build_daily_metrics_pairwise (df : List MRow) (f : String) :
    (build_daily_metrics df f).Pairwise (fun a b => tsLt a.fecha b.fecha) := by
  by_cases h : df = []
  · subst h; simp [build_daily_metrics]
  · rw [build_daily_metrics_eq df f h]
    exact groupRows_pairwise _ f

theorem build_daily_metrics_map_fecha (df : List MRow) (f : String) (h : df ≠ []) :
    (build_daily_metrics df f).map (fun r => r.fecha) = groupKeys (survivors df) := by
  rw [build_daily_metrics_eq df f h]
  unfold groupbyAgg
  rw [List.map_map, List.map_map]
  exact List.map_id' _

theorem mem_groupRows (l : List (Timestamp × ℚ)) (f : String) (row : MetricRow)
    (hrow : row ∈ (groupbyAgg l).map (addDerived f)) :
    0 < row.n_contratos ∧
      row.promedio_millones = row.suma_millones / (row.n_contratos : ℚ) := by
  rcases List.mem_map.mp hrow with ⟨g, hg, rfl⟩
  unfold groupbyAgg at hg
  rcases List.mem_map.mp hg with ⟨t, ht, rfl⟩
  refine ⟨?_, rfl⟩
  rcases (mem_groupKeys l t).mp ht with ⟨p, hp, hpt⟩
  have hmem : p ∈ l.filter (fun p => p.1 = t) :=
    List.mem_filter.mpr ⟨hp, by simp [hpt]⟩
  simpa [addDerived] using List.length_pos.mpr (List.ne_nil_of_mem hmem)

/-! ## Lemmas: drop_duplicates -/

theorem seenAfter_cons {α κ : Type} [DecidableEq κ] (key : α → κ) (seen : List κ)
    (a : α) (l : List α) :
    seenAfter key seen (a :: l) =
      if key a ∈ seen then seenAfter key seen l else seenAfter key (key a :: seen) l := by
  by_cases h : key a ∈ seen <;> simp [seenAfter, List.foldl, h]

theorem mem_seenAfter_mono {α κ : Type} [DecidableEq κ] (key : α → κ) {x : κ}
    (l : List α) : ∀ seen : List κ, x ∈ seen → x ∈ seenAfter key seen l := by
  induction l with
  | nil => intro seen h; exact h
  | cons a rest ih =>
      intro seen h
      rw [seenAfter_cons]
      by_cases ha : key a ∈ seen
      · rw [if_pos ha]; exact ih seen h
      · rw [if_neg ha]; exact ih _ (List.mem_cons_of_mem _ h)

theorem mem_seenAfter_of_mem {α κ : Type} [DecidableEq κ] (key : α → κ) {a : α}
    (l : List α) : ∀ seen : List κ, a ∈ l → key a ∈ seenAfter key seen l := by
  induction l with
  | nil => intro seen h; exact absurd h (List.not_mem_nil a)
  | cons b rest ih =>
      intro seen h
      rw [seenAfter_cons]
      rcases List.mem_cons.mp h with rfl | h2
      · by_cases hb : key a ∈ seen
        · rw [if_pos hb]; exact mem_seenAfter_mono key rest seen hb
        · rw [if_neg hb]
          exact mem_seenAfter_mono key rest _ (List.mem_cons_self _ _)
      · by_cases hb : key b ∈ seen
        · rw [if_pos hb]; exact ih seen h2
        · rw [if_neg hb]; exact ih _ h2

theorem dropDupsAux_append {α κ : Type} [DecidableEq κ] (key : α → κ)
    (l m : List α) : ∀ seen : List κ,
    dropDupsAux key seen (l ++ m) =
      dropDupsAux key seen l ++ dropDupsAux key (seenAfter key seen l) m := by
  induction l with
  | nil => intro seen; rfl
  | cons a rest ih =>
      intro seen
      rw [List.cons_append]
      by_cases h : key a ∈ seen
      · simp only [dropDupsAux, if_pos h, seenAfter_cons]
        exact ih seen
      · simp only [dropDupsAux, if_neg h, seenAfter_cons, List.cons_append]
        rw [ih (key a :: seen)]

theorem dropDupsAux_nil_of_seen {α κ : Type} [DecidableEq κ] (key : α → κ)
    (m : List α) : ∀ seen : List κ, (∀ a ∈ m, key a ∈ seen) →
    dropDupsAux key seen m = [] := by
  induction m with
  | nil => intro seen _; rfl
  | cons a rest ih =>
      intro seen h
      have ha : key a ∈ seen := h a (List.mem_cons_self _ _)
      simp only [dropDupsAux, if_pos ha]
      exact ih seen (fun b hb => h b (List.mem_cons_of_mem _ hb))

theorem dropDupsAux_eq_self {α κ : Type} [DecidableEq κ] (key : α → κ)
    (m : List α) (hnd : (m.map key).Nodup) : ∀ seen : List κ,
    (∀ a ∈ m, key a ∉ seen) → dropDupsAux key seen m = m := by
  induction m with
  | nil => intro seen _; rfl
  | cons a rest ih =>
      intro seen h
      have ha : key a ∉ seen := h a (List.mem_cons_self _ _)
      simp only [dropDupsAux, if_neg ha]
      rw [List.map_cons, List.nodup_cons] at hnd
      refine congrArg (a :: ·) (ih hnd.2 _ ?_)
      intro b hb
      rw [List.mem_cons]
      rintro (he | hs)
      · exact hnd.1 (he ▸ List.mem_map_of_mem key hb)
      · exact h b (List.mem_cons_of_mem _ hb) hs

theorem dropDupsAux_idem {α κ : Type} [DecidableEq κ] (key : α → κ)
    (l : List α) : ∀ seen : List κ,
    dropDupsAux key seen (dropDupsAux key seen l) = dropDupsAux key seen l := by
  induction l with
  | nil => intro seen; rfl
  | cons a rest ih =>
      intro seen
      by_cases h : key a ∈ seen
      · simp only [dropDupsAux, if_pos h]
        exact ih seen
      · simp only [dropDupsAux, if_neg h]
        rw [ih (key a :: seen)]

theorem mem_key_dropDupsAux {α κ : Type} [DecidableEq κ] (key : α → κ) {a : α}
    (l : List α) : ∀ seen : List κ, a ∈ l →
    key a ∈ seen ∨ ∃ b ∈ dropDupsAux key seen l, key b = key a := by
  induction l with
  | nil => intro seen h; exact absurd h (List.not_mem_nil a)
  | cons c rest ih =>
      intro seen h
      rcases List.mem_cons.mp h with rfl | h2
      · by_cases hc : key a ∈ seen
        · exact Or.inl hc
        · refine Or.inr ⟨a, ?_, rfl⟩
          simp only [dropDupsAux, if_neg hc]
          exact List.mem_cons_self _ _
      · by_cases hc : key c ∈ seen
        · simp only [dropDupsAux, if_pos hc]
          exact ih seen h2
        · simp only [dropDupsAux, if_neg hc]
          rcases ih (key c :: seen) h2 with hs | ⟨b, hb, he⟩
          · rcases List.mem_cons.mp hs with he | hs2
            · refine Or.inr ⟨c, List.mem_cons_self _ _, he.symm⟩
            · exact Or.inl hs2
          · exact Or.inr ⟨b, List.mem_cons_of_mem _ hb, he⟩

theorem drop_duplicates_absorb {α κ : Type} [DecidableEq κ] (key : α → κ)
    (l m : List α) (hm : ∀ a ∈ m, ∃ b ∈ drop_duplicates key l, key b = key a) :
    drop_duplicates key (drop_duplicates key l ++ m) = drop_duplicates key l := by
  unfold drop_duplicates
  rw [dropDupsAux_append, dropDupsAux_idem]
  have hnil : dropDupsAux key (seenAfter key [] (dropDupsAux key [] l)) m = [] := by
    refine dropDupsAux_nil_of_seen key m _ ?_
    intro a ha
    rcases hm a ha with ⟨b, hb, he⟩
    exact he ▸ mem_seenAfter_of_mem key _ _ hb
  rw [hnil, List.append_nil]

/-! ## Lemmas: fetchers -/

theorem mem_fetch_secop1_since (raws : List Raw1) (r : Clean1Etl)
    (h : r ∈ fetch_secop1_since raws) :
    r.fecha_de_cargue.isSome = true ∧ r.cuantia_contrato.isSome = true := by
  unfold fetch_secop1_since at h
  by_cases he : raws.isEmpty
  · rw [if_pos he] at h
    exact absurd h (List.not_mem_nil r)
  · rw [if_neg he] at h
    have hp := (List.mem_filter.mp h).2
    simpa [Bool.and_eq_true] using hp

theorem mem_fetch_secop2_since (raws : List Raw2) (r : Clean2Etl)
    (h : r ∈ fetch_secop2_since raws) :
    r.fecha_de_firma.isSome = true ∧ r.valor_del_contrato.isSome = true := by
  unfold fetch_secop2_since at h
  by_cases he : raws.isEmpty
  · rw [if_pos he] at h
    exact absurd h (List.not_mem_nil r)
  · rw [if_neg he] at h
    have hp := (List.mem_filter.mp h).2
    simpa [Bool.and_eq_true] using hp

theorem mem_fetch_secop1 (raws : List Raw1) (r : Clean1Api)
    (h : r ∈ fetch_secop1 raws) :
    r.fecha_de_cargue.isSome = true ∧ r.cuantia_contrato.isSome = true := by
  unfold fetch_secop1 at h
  by_cases he : raws.isEmpty
  · rw [if_pos he] at h
    exact absurd h (List.not_mem_nil r)
  · rw [if_neg he] at h
    have hp := (List.mem_filter.mp h).2
    simpa [Bool.and_eq_true] using hp

theorem mem_fetch_secop2 (raws : List Raw2) (r : Clean2Api)
    (h : r ∈ fetch_secop2 raws) :
    r.fecha_de_firma.isSome = true ∧ r.valor_del_contrato.isSome = true := by
  unfold fetch_secop2 at h
  by_cases he : raws.isEmpty
  · rw [if_pos he] at h
    exact absurd h (List.not_mem_nil r)
  · rw [if_neg he] at h
    have hp := (List.mem_filter.mp h).2
    simpa [Bool.and_eq_true] using hp

/-- Sanity: the object-level model computes the same output as the pure
embedding of build_daily_metrics. -/
theorem build_daily_metrics_heap_fst (df : List MRow) (f : String) :
    (build_daily_metrics_heap df f).1 = build_daily_metrics df f := by
  by_cases h : df = []
  · simp [build_daily_metrics_heap, build_daily_metrics, h]
  · simp [build_daily_metrics_heap, build_daily_metrics, survivors, dropnaFechaValor,
      h, List.getD]

/-! ## Claim theorems -/

/-- C1 counterexample: two records on the same calendar day (day 0) at
different times of day (tod 600 vs 660) are NOT merged by
build_daily_metrics: the output has two rows, refuting calendar-date
granularity. -/
theorem same_day_different_time_not_merged :
    ((⟨0, 600⟩ : Timestamp).day = (⟨0, 660⟩ : Timestamp).day) ∧
    ((⟨0, 600⟩ : Timestamp) ≠ ⟨0, 660⟩) ∧
    (build_daily_metrics
      [⟨some ⟨0, 600⟩, .num 1⟩, ⟨some ⟨0, 660⟩, .num 1⟩] "SECOP 1").length = 2 := by
  decide

/-- C1 (amended): build_daily_metrics groups rows by the exact value of the
date field, not by calendar day: each exact date value of the surviving rows
yields exactly one output row (no output date value repeats, and a date value
appears in the output iff some surviving record carries exactly that value).
Two records merge into one row iff their date-field values are equal,
including the time component. -/
theorem groups_by_exact_date_value (df : List MRow) (f : String) :
    ((build_daily_metrics df f).map (fun r => r.fecha)).Nodup ∧
    ∀ t : Timestamp,
      (t ∈ (build_daily_metrics df f).map (fun r => r.fecha) ↔
        ∃ p ∈ survivors df, p.1 = t) := by
  constructor
  · exact List.pairwise_map.mpr
      ((build_daily_metrics_pairwise df f).imp (fun h => tsLt_ne h))
  · intro t
    by_cases h : df = []
    · subst h
      simp [build_daily_metrics, survivors, dropnaFechaValor]
    · rw [build_daily_metrics_map_fecha df f h]
      exact mem_groupKeys _ t

/-- C2 counterexample: merging batch [0, 0] (a batch with an internal
duplicate) into a nonexistent store writes it verbatim; re-merging the same
batch then collapses the duplicate, so the store changes on the second
merge. -/
theorem merge_not_idempotent_on_fresh_store :
    append_to_parquet (fun n => n) [0, 0]
        (append_to_parquet (fun n => n) [0, 0] (none : Option (List Nat))) ≠
      append_to_parquet (fun n => n) [0, 0] (none : Option (List Nat)) := by
  decide

/-- C2 (amended): merge is idempotent provided the store existed before the
merge, or the batch is duplicate-free under the dedup key: then
merge(merge(store, A), A) = merge(store, A).  (When the store did not exist
and the batch has internal key-duplicates, the first merge stores them
verbatim and the re-merge collapses them.) -/
theorem merge_idempotent (α κ : Type) [DecidableEq κ] (key : α → κ)
    (A : List α) (store : Option (List α))
    (h : (∃ s, store = some s) ∨ (A.map key).Nodup) :
    append_to_parquet key A (append_to_parquet key A store) =
      append_to_parquet key A store := by
  by_cases hA : A.isEmpty
  · simp [append_to_parquet, hA]
  · cases store with
    | some s =>
        have hin : append_to_parquet key A (some s) =
            some (drop_duplicates key (s ++ A)) := by
          simp [append_to_parquet, hA]
        rw [hin]
        have hout : append_to_parquet key A (some (drop_duplicates key (s ++ A))) =
            some (drop_duplicates key (drop_duplicates key (s ++ A) ++ A)) := by
          simp [append_to_parquet, hA]
        rw [hout]
        refine congrArg some (drop_duplicates_absorb key (s ++ A) A ?_)
        intro a ha
        rcases mem_key_dropDupsAux key (s ++ A) [] (List.mem_append_right s ha) with
          hfalse | hb
        · exact absurd hfalse (List.not_mem_nil _)
        · exact hb
    | none =>
        rcases h with ⟨s, hs⟩ | hnd
        · exact absurd hs (by simp)
        · have hin : append_to_parquet key A (none : Option (List α)) = some A := by
            simp [append_to_parquet, hA]
          rw [hin]
          have hout : append_to_parquet key A (some A) =
              some (drop_duplicates key (A ++ A)) := by
            simp [append_to_parquet, hA]
          rw [hout]
          refine congrArg some ?_
          have h1 : dropDupsAux key [] A = A :=
            dropDupsAux_eq_self key A hnd [] (by simp)
          unfold drop_duplicates
          rw [dropDupsAux_append, h1]
          have h2 : dropDupsAux key (seenAfter key [] A) A = [] :=
            dropDupsAux_nil_of_seen key A _
              (fun a ha => mem_seenAfter_of_mem key A [] ha)
          rw [h2, List.append_nil]

/-- C2 witness: a duplicate-free batch merged twice into an initially
nonexistent store. -/
theorem merge_idempotent_witness :
    (([1, 2] : List Nat).map (fun n => n)).Nodup ∧
      append_to_parquet (fun n => n) [1, 2]
          (append_to_parquet (fun n => n) [1, 2] (none : Option (List Nat))) =
        append_to_parquet (fun n => n) [1, 2] (none : Option (List Nat)) :=
  ⟨by decide, merge_idempotent Nat Nat (fun n => n) [1, 2] none (Or.inr (by decide))⟩

/-- C3 counterexample: when the store does not exist, the pre-merge watermark
is the default lookback (today 1000 - 365 = 635); merging a batch whose only
record is older (day 0) makes the watermark drop to 0 < 635. -/
theorem watermark_not_monotonic_on_missing_store :
    ¬ (get_last_date_from_parquet
          (append_to_parquet (fun r => r.uid) [⟨⟨0, 0⟩, 1, 0⟩] none) 1000 365 ≥
        get_last_date_from_parquet none 1000 365) := by
  decide

/-- C3 (amended): the watermark is monotone across a merge whenever the store
exists, is non-empty, and holds no dedup-key duplicates (as any store
produced by the merge's dedup pass does): for every batch, the watermark of
the merged store is ≥ the watermark of the prior store.  For an absent or
empty store the property fails when the batch is older than today minus the
default lookback. -/
theorem watermark_monotonic (κ : Type) [DecidableEq κ] (key : SRow → κ)
    (s A : List SRow) (today d : Int) (hne : s ≠ []) (hnd : (s.map key).Nodup) :
    get_last_date_from_parquet (some s) today d ≤
      get_last_date_from_parquet (append_to_parquet key A (some s)) today d := by
  by_cases hA : A.isEmpty
  · simp [append_to_parquet, hA]
  · have happ : append_to_parquet key A (some s) =
        some (drop_duplicates key (s ++ A)) := by
      simp [append_to_parquet, hA]
    rw [happ]
    have hdd : drop_duplicates key (s ++ A) =
        s ++ dropDupsAux key (seenAfter key [] s) A := by
      unfold drop_duplicates
      rw [dropDupsAux_append, dropDupsAux_eq_self key s hnd [] (by simp)]
    rw [hdd]
    obtain ⟨m0, hm0⟩ := colMax_isSome (l := s.map (fun r => r.fecha))
      (by simpa [List.map_eq_nil_iff] using hne)
    have hLne : s ++ dropDupsAux key (seenAfter key [] s) A ≠ [] := by
      cases s with
      | nil => exact absurd rfl hne
      | cons a t => simp
    obtain ⟨m1, hm1⟩ := colMax_isSome
      (l := (s ++ dropDupsAux key (seenAfter key [] s) A).map (fun r => r.fecha))
      (by simpa [List.map_eq_nil_iff] using hLne)
    simp only [get_last_date_from_parquet, hm0, hm1]
    apply tsLe_day
    apply colMax_ge hm1
    rw [List.map_append]
    exact List.mem_append_left _ (colMax_mem hm0)

/-- C3 witness: a concrete non-empty duplicate-free store merged with a newer
batch. -/
theorem watermark_monotonic_witness :
    (([⟨⟨5, 0⟩, 1, 0⟩] : List SRow) ≠ []) ∧
      (([⟨⟨5, 0⟩, 1, 0⟩] : List SRow).map (fun r => r.uid)).Nodup ∧
      get_last_date_from_parquet (some [⟨⟨5, 0⟩, 1, 0⟩]) 1000 365 ≤
        get_last_date_from_parquet
          (append_to_parquet (fun r => r.uid) [⟨⟨6, 0⟩, 2, 1⟩]
            (some [⟨⟨5, 0⟩, 1, 0⟩])) 1000 365 :=
  ⟨by decide, by decide,
    watermark_monotonic Nat (fun r => r.uid) [⟨⟨5, 0⟩, 1, 0⟩] [⟨⟨6, 0⟩, 2, 1⟩]
      1000 365 (by decide) (by decide)⟩

/-- C5: every row of build_daily_metrics output on a non-empty input has a
positive contract count and its average equals its sum divided by its count;
no emitted group is empty, so the division is never by zero. -/
theorem average_eq_sum_div_count (df : List MRow) (f : String) (hdf : df ≠ [])
    (i : Nat) (hi : i < (build_daily_metrics df f).length) :
    0 < ((build_daily_metrics df f).getD i defaultMetricRow).n_contratos ∧
      ((build_daily_metrics df f).getD i defaultMetricRow).promedio_millones =
        ((build_daily_metrics df f).getD i defaultMetricRow).suma_millones /
          (((build_daily_metrics df f).getD i defaultMetricRow).n_contratos : ℚ) := by
  rw [List.getD_eq_getElem _ _ hi]
  have hmem : (build_daily_metrics df f)[i] ∈
      (groupbyAgg (survivors df)).map (addDerived f) := by
    rw [← build_daily_metrics_eq df f hdf]
    exact List.getElem_mem hi
  exact mem_groupRows (survivors df) f _ hmem

/-- C5 witness: the single-row output of a one-record input. -/
theorem average_eq_sum_div_count_witness :
    (([⟨some ⟨0, 0⟩, .num 10⟩] : List MRow) ≠ []) ∧
      0 < (build_daily_metrics [⟨some ⟨0, 0⟩, .num 10⟩] "SECOP 1").length ∧
      (0 < ((build_daily_metrics [⟨some ⟨0, 0⟩, .num 10⟩] "SECOP 1").getD 0
          defaultMetricRow).n_contratos ∧
        ((build_daily_metrics [⟨some ⟨0, 0⟩, .num 10⟩] "SECOP 1").getD 0
            defaultMetricRow).promedio_millones =
          ((build_daily_metrics [⟨some ⟨0, 0⟩, .num 10⟩] "SECOP 1").getD 0
              defaultMetricRow).suma_millones /
            (((build_daily_metrics [⟨some ⟨0, 0⟩, .num 10⟩] "SECOP 1").getD 0
                defaultMetricRow).n_contratos : ℚ)) :=
  ⟨by decide, by decide,
    average_eq_sum_div_count [⟨some ⟨0, 0⟩, .num 10⟩] "SECOP 1" (by decide) 0 (by decide)⟩

/-- C6: build_daily_metrics output is sorted ascending by the date column,
and no two output rows share the same (date, source) pair. -/
theorem output_sorted_and_unique (df : List MRow) (f : String) :
    (build_daily_metrics df f).Pairwise (fun a b => tsLe a.fecha b.fecha) ∧
    (build_daily_metrics df f).Pairwise
      (fun a b => (a.fecha, a.fuente) ≠ (b.fecha, b.fuente)) := by
  have hp := build_daily_metrics_pairwise df f
  exact ⟨hp.imp (fun h => tsLe_of_tsLt h),
    hp.imp (fun h heq => tsLt_ne h (congrArg Prod.fst heq))⟩

/-- C7: the watermark is today - default_days_back when the store is absent
or empty; otherwise it is the date (day) of a stored record that is maximal:
its day bounds every stored record's day from above. -/
theorem last_date_spec (s : List SRow) (today d : Int) :
    get_last_date_from_parquet none today d = today - d ∧
    get_last_date_from_parquet (some []) today d = today - d ∧
    (s ≠ [] → ∃ r ∈ s,
      get_last_date_from_parquet (some s) today d = r.fecha.day ∧
      ∀ r2 ∈ s, r2.fecha.day ≤ r.fecha.day) := by
  refine ⟨rfl, rfl, ?_⟩
  intro hne
  obtain ⟨m, hm⟩ := colMax_isSome (l := s.map (fun r => r.fecha))
    (by simpa [List.map_eq_nil_iff] using hne)
  rcases List.mem_map.mp (colMax_mem hm) with ⟨r, hr, hre⟩
  refine ⟨r, hr, ?_, ?_⟩
  · simp only [get_last_date_from_parquet, hm]
    rw [← hre]
  · intro r2 hr2
    have h2 := colMax_ge hm r2.fecha (List.mem_map_of_mem _ hr2)
    rw [← hre] at h2
    exact tsLe_day h2

/-- C7 witness: a two-record store whose maximum date is day 7. -/
theorem last_date_spec_witness :
    (([⟨⟨3, 0⟩, 1, 0⟩, ⟨⟨7, 5⟩, 2, 1⟩] : List SRow) ≠ []) ∧
      ∃ r ∈ ([⟨⟨3, 0⟩, 1, 0⟩, ⟨⟨7, 5⟩, 2, 1⟩] : List SRow),
        get_last_date_from_parquet (some [⟨⟨3, 0⟩, 1, 0⟩, ⟨⟨7, 5⟩, 2, 1⟩])
            1000 365 = r.fecha.day ∧
        ∀ r2 ∈ ([⟨⟨3, 0⟩, 1, 0⟩, ⟨⟨7, 5⟩, 2, 1⟩] : List SRow),
          r2.fecha.day ≤ r.fecha.day :=
  ⟨by decide,
    (last_date_spec [⟨⟨3, 0⟩, 1, 0⟩, ⟨⟨7, 5⟩, 2, 1⟩] 1000 365).2.2 (by decide)⟩

/-- C8: on an empty input record set, build_daily_metrics returns the empty
list of MetricRow — an empty result with the defined column shape (fecha,
n_contratos, suma_millones, promedio_millones, fuente), not a failure or
null. -/
theorem empty_input_empty_output (f : String) :
    build_daily_metrics [] f = ([] : List MetricRow) := rfl

/-- C9: every record returned by any of the four fetch operations has a
non-null date field and a non-null (coerced) numeric value field: records
missing either are dropped before being returned. -/
theorem fetch_non_null (raws1 : List Raw1) (raws2 : List Raw2) (i : Nat) :
    (i < (fetch_secop1_since raws1).length →
      ((fetch_secop1_since raws1).getD i defaultClean1Etl).fecha_de_cargue.isSome = true ∧
      ((fetch_secop1_since raws1).getD i defaultClean1Etl).cuantia_contrato.isSome = true) ∧
    (i < (fetch_secop2_since raws2).length →
      ((fetch_secop2_since raws2).getD i defaultClean2Etl).fecha_de_firma.isSome = true ∧
      ((fetch_secop2_since raws2).getD i defaultClean2Etl).valor_del_contrato.isSome = true) ∧
    (i < (fetch_secop1 raws1).length →
      ((fetch_secop1 raws1).getD i defaultClean1Api).fecha_de_cargue.isSome = true ∧
      ((fetch_secop1 raws1).getD i defaultClean1Api).cuantia_contrato.isSome = true) ∧
    (i < (fetch_secop2 raws2).length →
      ((fetch_secop2 raws2).getD i defaultClean2Api).fecha_de_firma.isSome = true ∧
      ((fetch_secop2 raws2).getD i defaultClean2Api).valor_del_contrato.isSome = true) := by
  refine ⟨?_, ?_, ?_, ?_⟩
  · intro h
    rw [List.getD_eq_getElem _ _ h]
    exact mem_fetch_secop1_since raws1 _ (List.getElem_mem h)
  · intro h
    rw [List.getD_eq_getElem _ _ h]
    exact mem_fetch_secop2_since raws2 _ (List.getElem_mem h)
  · intro h
    rw [List.getD_eq_getElem _ _ h]
    exact mem_fetch_secop1 raws1 _ (List.getElem_mem h)
  · intro h
    rw [List.getD_eq_getElem _ _ h]
    exact mem_fetch_secop2 raws2 _ (List.getElem_mem h)

/-- C9 witness: one valid raw record per source passes through each fetcher. -/
theorem fetch_non_null_witness :
    (0 < (fetch_secop1_since [⟨"e", .num 5000000, .ts ⟨10, 2⟩, .dictUrl "u"⟩]).length ∧
      ((fetch_secop1_since [⟨"e", .num 5000000, .ts ⟨10, 2⟩, .dictUrl "u"⟩]).getD 0
        defaultClean1Etl).fecha_de_cargue.isSome = true ∧
      ((fetch_secop1_since [⟨"e", .num 5000000, .ts ⟨10, 2⟩, .dictUrl "u"⟩]).getD 0
        defaultClean1Etl).cuantia_contrato.isSome = true) ∧
    (0 < (fetch_secop2 [⟨"e", .num 7000000, .ts ⟨11, 4⟩, .scalar "u"⟩]).length ∧
      ((fetch_secop2 [⟨"e", .num 7000000, .ts ⟨11, 4⟩, .scalar "u"⟩]).getD 0
        defaultClean2Api).fecha_de_firma.isSome = true ∧
      ((fetch_secop2 [⟨"e", .num 7000000, .ts ⟨11, 4⟩, .scalar "u"⟩]).getD 0
        defaultClean2Api).valor_del_contrato.isSome = true) :=
  ⟨⟨by decide,
    (fetch_non_null [⟨"e", .num 5000000, .ts ⟨10, 2⟩, .dictUrl "u"⟩]
      [⟨"e", .num 7000000, .ts ⟨11, 4⟩, .scalar "u"⟩] 0).1 (by decide)⟩,
   ⟨by decide,
    (fetch_non_null [⟨"e", .num 5000000, .ts ⟨10, 2⟩, .dictUrl "u"⟩]
      [⟨"e", .num 7000000, .ts ⟨11, 4⟩, .scalar "u"⟩] 0).2.2.2 (by decide)⟩⟩

/-- C10: build_daily_metrics does not mutate its input: in the object-level
model (build_daily_metrics_heap), the caller's dataframe object is unchanged
after the call — the in-place value coercion of line 25 hits only the copy
allocated at line 22, and row dropping rebinds the working variable to a
fresh object. -/
theorem input_not_mutated (df : List MRow) (f : String) :
    (build_daily_metrics_heap df f).2 = df := by
  unfold build_daily_metrics_heap
  by_cases h : df = []
  · rw [if_pos h]
  · rw [if_neg h]
    simp [List.getD]

/-! ## Concrete sanity checks -/

example : (build_daily_metrics [⟨some ⟨0, 0⟩, .num 10⟩, ⟨some ⟨0, 0⟩, .num 20⟩,
    ⟨some ⟨1, 0⟩, .nonnum⟩] "S").map (fun r => (r.fecha, r.n_contratos)) =
    [(⟨0, 0⟩, 2)] := by decide

example : get_last_date_from_parquet none 1000 365 = 635 := by decide
example : get_last_date_from_parquet
    (some [⟨⟨5, 3⟩, 1, 0⟩, ⟨⟨5, 9⟩, 2, 1⟩, ⟨⟨4, 80⟩, 3, 2⟩]) 1000 365 = 5 := by decide
example : append_to_parquet (fun n => n) [0, 0] (append_to_parquet (fun n => n) [0, 0]
    (none : Option (List Nat))) = some [0] := by decide
